import Mathlib

/-!
Verification of the emit log-aggregation platform against its
natural-language specification.

The frontend API layer (frontend/services/apiService.ts, authService.ts,
logService.ts) and the pagination logic of frontend/components/LogsPage.tsx
are embedded directly from the TypeScript source.  The backend pipeline
(ingestion gateway, registry, query service) is not part of the source
tree, so those definitions are modelled from the specification and are
marked as such in their doc comments.
-/

namespace Emit

/-- A JavaScript value as it can appear in the params record handed to
ApiService.request: undefined, null, a string, or a number. -/
inductive JsValue where
  | undef
  | null
  | str (s : String)
  | num (n : Int)

deriving instance DecidableEq for JsValue

/-- JavaScript String(value) coercion for the values reaching
url.searchParams.append. -/
def JsValue.toJsString : JsValue → String
  | .undef => "undefined"
  | .null => "null"
  | .str s => s
  | .num n => toString n

/-- The guard in ApiService.request: a parameter is appended to the URL only
when its value is strictly different from undefined, from null and from the
empty string. -/
def shouldAppend : JsValue → Bool
  | .undef => false
  | .null => false
  | .str s => s != ""
  | .num _ => true

/-- ApiService.request: the query parameters actually appended to the URL,
in iteration order of the params record. -/
def appendParams (ps : List (String × JsValue)) : List (String × String) :=
  (ps.filter (fun kv => shouldAppend kv.2)).map (fun kv => (kv.1, kv.2.toJsString))

/-- The parameter record accepted by ApiService.fetchLogs (FetchLogsParams
plus the optional project_id). -/
structure FetchLogsParams where
  page : Int
  size : Int
  search : Option String
  level : Option String
  service : Option String
  startDate : Option String
  endDate : Option String
  backend : Option String
  project_id : Option String

deriving instance DecidableEq for FetchLogsParams

/-- JavaScript truthiness of an optional string: present and non-empty. -/
def strTruthy : Option String → Bool
  | none => false
  | some s => s != ""

/-- One conditional assignment of ApiService.fetchLogs: the parameter named
k is set on the apiParams record when the optional value is present and
passes the truthiness guard of the corresponding if statement. -/
def optStrParam (k : String) (g : String → Bool) : Option String → List (String × JsValue)
  | some s => if g s then [(k, JsValue.str s)] else []
  | none => []

/-- ApiService.fetchLogs: the apiParams record built from the caller
parameters; page and size are always present, the string filters only when
truthy, level and service additionally only when different from ALL, and
startDate and endDate are renamed to from_ts and to_ts. -/
def buildApiParams (p : FetchLogsParams) : List (String × JsValue) :=
  [("page", JsValue.num p.page), ("size", JsValue.num p.size)]
    ++ optStrParam "search" (fun s => s != "") p.search
    ++ optStrParam "level" (fun s => s != "" && s != "ALL") p.level
    ++ optStrParam "service" (fun s => s != "" && s != "ALL") p.service
    ++ optStrParam "from_ts" (fun s => s != "") p.startDate
    ++ optStrParam "to_ts" (fun s => s != "") p.endDate
    ++ optStrParam "backend" (fun s => s != "") p.backend
    ++ optStrParam "project_id" (fun s => s != "") p.project_id

/-- The query string of the GET /logs request issued by ApiService.fetchLogs:
the apiParams record filtered and stringified by ApiService.request. -/
def fetchLogsQuery (p : FetchLogsParams) : List (String × String) :=
  appendParams (buildApiParams p)

/-- The enumerated log levels (types.ts LogLevel and the level set of the
specification data model). -/
inductive Level where
  | INFO
  | WARNING
  | ERROR
  | CRITICAL
  | DEBUG

deriving instance DecidableEq, BEq for Level

/-- A log entry as carried by the pipeline: the frontend LogEntry fields plus
the mandatory project identifier of the specification data model.  ISO
timestamps are modelled as naturals preserving their order; metadata is a
list of key-value pairs with string values. -/
structure LogEntry where
  id : Nat
  timestamp : Nat
  level : Level
  service : String
  message : String
  metadata : List (String × String)
  project_id : String

deriving instance DecidableEq for LogEntry

/-- The LogsResponse shape of apiService.ts: logs, total, page, size,
total_pages. -/
structure LogsResponse where
  logs : List LogEntry
  total : Nat
  page : Nat
  size : Nat
  total_pages : Nat

deriving instance DecidableEq for LogsResponse

/-- The result shape of logService.fetchLogs. -/
structure FetchLogsResult where
  data : List LogEntry
  total : Nat

deriving instance DecidableEq for FetchLogsResult

/-- logService.fetchLogs: maps the ApiService response to the data and total
fields consumed by the page. -/
def logServiceNormalize (r : LogsResponse) : FetchLogsResult :=
  { data := r.logs, total := r.total }

/-- The observable effect of ApiService.getServices: either a locally
constructed empty services result returned without any network request, or a
GET request against an endpoint with a query string. -/
inductive ServicesCall where
  | localEmpty
  | httpGet (endpoint : String) (query : List (String × String))

deriving instance DecidableEq for ServicesCall

/-- ApiService.getServices: for the s3 backend the call short-circuits to an
empty services object; every other backend value issues a GET /logs/services
request, carrying the backend parameter when it is truthy. -/
def getServices (backend : Option String) : ServicesCall :=
  let params : List (String × JsValue) :=
    if strTruthy backend && backend != some "s3" then
      [("backend", JsValue.str (backend.getD ""))]
    else []
  if backend == some "s3" then ServicesCall.localEmpty
  else ServicesCall.httpGet "/logs/services" (appendParams params)

/-- The body shape posted by ApiService.ingestLog. -/
structure IngestPayload where
  message : String
  level : String
  service : String
  timestamp : Option String
  metadata : List (String × String)

deriving instance DecidableEq for IngestPayload

/-- A POST request as built by ApiService.ingestLog: url, header list and
JSON body. -/
structure HttpPost where
  url : String
  headers : List (String × String)
  body : IngestPayload

deriving instance DecidableEq for HttpPost

/-- ApiService.ingestLog request construction: POST on baseUrl/ingest whose
only header is Content-Type. -/
def ingestLogRequest (baseUrl : String) (d : IngestPayload) : HttpPost :=
  { url := baseUrl ++ "/ingest"
    headers := [("Content-Type", "application/json")]
    body := d }

/-- A POST request as built by ApiService.ingestLogsBatch. -/
structure HttpBatchPost where
  url : String
  headers : List (String × String)
  body : List IngestPayload

deriving instance DecidableEq for HttpBatchPost

/-- ApiService.ingestLogsBatch request construction: POST on
baseUrl/ingest/batch whose only header is Content-Type. -/
def ingestLogsBatchRequest (baseUrl : String) (ds : List IngestPayload) : HttpBatchPost :=
  { url := baseUrl ++ "/ingest/batch"
    headers := [("Content-Type", "application/json")]
    body := ds }

/-- The message of the Error thrown on a non-ok response: errorData.detail
when present and non-empty, otherwise the HTTP status line fallback. -/
def throwMessage (status : Nat) (statusText : String) (detail : Option String) : String :=
  match detail with
  | some d => if d != "" then d else "HTTP " ++ toString status ++ ": " ++ statusText
  | none => "HTTP " ++ toString status ++ ": " ++ statusText

/-- response.ok of fetch: the HTTP status lies in the 2xx range. -/
def respOk (status : Nat) : Bool := 200 ≤ status && status < 300

/-- The success body shape of POST /ingest: status, message, timestamp. -/
structure IngestOkResponse where
  status : String
  message : String
  timestamp : String

deriving instance DecidableEq for IngestOkResponse

/-- ApiService.ingestLog outcome: the parsed body of an ok response,
otherwise a thrown Error carrying the detail or the status-line fallback. -/
def ingestLogOutcome (status : Nat) (statusText : String) (detail : Option String)
    (body : IngestOkResponse) : Except String IngestOkResponse :=
  if respOk status then Except.ok body
  else Except.error (throwMessage status statusText detail)

/-- The success body shape of POST /ingest/batch: status, message, queued,
failed. -/
structure BatchOkResponse where
  status : String
  message : String
  queued : Nat
  failed : Nat

deriving instance DecidableEq for BatchOkResponse

/-- ApiService.ingestLogsBatch outcome: the parsed body of an ok response,
otherwise a thrown Error carrying the detail or the status-line fallback. -/
def ingestBatchOutcome (status : Nat) (statusText : String) (detail : Option String)
    (body : BatchOkResponse) : Except String BatchOkResponse :=
  if respOk status then Except.ok body
  else Except.error (throwMessage status statusText detail)

/-- The User shape of types.ts. -/
structure User where
  id : String
  username : String
  api_key : String

deriving instance DecidableEq for User

/-- The Project shape of types.ts. -/
structure Project where
  id : String
  name : String
  description : Option String
  api_key : String
  owner_id : String
  created_at : String

deriving instance DecidableEq for Project

/-- The StoredCredentials shape of types.ts, persisted in localStorage. -/
structure StoredCredentials where
  user : User
  oauth_token : String
  projects : List Project

deriving instance DecidableEq for StoredCredentials

/-- AuthService.registerUser, storage part: after a successful /join
response the saved credentials use the returned api_key as oauth_token. -/
def registerStore (u : User) : StoredCredentials :=
  { user := u, oauth_token := u.api_key, projects := [] }

/-- AuthService.getProjectApiKey: fails when no oauth token is stored,
propagates the thrown Error message on a non-ok response, and otherwise
returns the api_key field of the response body verbatim. -/
def getProjectApiKey (creds : Option StoredCredentials) (status : Nat)
    (statusText : String) (detail : Option String) (respApiKey : String) :
    Except String String :=
  match creds with
  | none => Except.error "Not authenticated"
  | some c =>
    if c.oauth_token == "" then Except.error "Not authenticated"
    else if respOk status then Except.ok respApiKey
    else Except.error (throwMessage status statusText detail)

/-- The PaginationState of LogsPage.tsx. -/
structure PaginationState where
  page : Nat
  size : Nat
  total : Nat

deriving instance DecidableEq for PaginationState

/-- Ceiling division on naturals, the value of Math.ceil of the real
quotient for a positive divisor. -/
def ceilDiv (a b : Nat) : Nat := (a + b - 1) / b

/-- LogsPage: totalPages is the ceiling of total divided by size. -/
def totalPages (p : PaginationState) : Nat := ceilDiv p.total p.size

/-- LogsPage.handleFilterChange and handleQueryChange both reset the page to
one while keeping size and total. -/
def resetPage (p : PaginationState) : PaginationState := { p with page := 1 }

/-- The disabled condition of the Previous button: page equals one. -/
def prevDisabled (p : PaginationState) : Bool := p.page == 1

/-- The disabled condition of the Next button: page at least totalPages. -/
def nextDisabled (p : PaginationState) : Bool := decide (totalPages p ≤ p.page)

/-- The Previous click: handlePageChange with the maximum of one and the
decremented page. -/
def prevClick (p : PaginationState) : PaginationState :=
  { p with page := max 1 (p.page - 1) }

/-- The Next click: handlePageChange with the minimum of totalPages and the
incremented page. -/
def nextClick (p : PaginationState) : PaginationState :=
  { p with page := min (totalPages p) (p.page + 1) }

/-- Modelled from the spec: the backend query filter of section 4.5 (the
backend source is not under src).  none encodes ALL for level and service
and an absent bound for the other fields; page and size arrive as request
integers, size possibly non-positive. -/
structure QueryFilter where
  search : Option String
  level : Option Level
  service : Option String
  from_ts : Option Nat
  to_ts : Option Nat
  page : Nat
  size : Int

deriving instance DecidableEq for QueryFilter

/-- Substring occurrence used to model free-text search: the needle is empty
or splitting the haystack on it yields at least two parts. -/
def containsSub (hay needle : String) : Bool :=
  needle.isEmpty || decide (2 ≤ (hay.splitOn needle).length)

/-- Modelled from the spec: an entry matches the filter when the search text
occurs in the message or in a metadata value, level and service match
exactly or are ALL, and the timestamp lies in the inclusive range
(section 4.5 query contract). -/
def matchesFilter (f : QueryFilter) (e : LogEntry) : Bool :=
  (match f.search with
   | none => true
   | some q => containsSub e.message q || e.metadata.any (fun kv => containsSub kv.2 q))
  && (match f.level with
      | none => true
      | some lv => e.level == lv)
  && (match f.service with
      | none => true
      | some sv => e.service == sv)
  && (match f.from_ts with
      | none => true
      | some a => decide (a ≤ e.timestamp))
  && (match f.to_ts with
      | none => true
      | some b => decide (e.timestamp ≤ b))

/-- Modelled from the spec: result ordering, descending by timestamp with
ties broken by assigned identifier (section 4.5). -/
def entryBefore (a b : LogEntry) : Bool :=
  decide (b.timestamp < a.timestamp)
    || (a.timestamp == b.timestamp && decide (a.id ≤ b.id))

/-- Modelled from the spec: the entries of the store belonging to the
authenticated project that match the filter - every query is scoped to the
ProjectID resolved from the credential (section 4.5). -/
def queryMatches (store : List LogEntry) (pid : String) (f : QueryFilter) :
    List LogEntry :=
  store.filter (fun e => e.project_id == pid && matchesFilter f e)

/-- The normalized query response shape of section 4.6: entries, total,
page, size, totalPages. -/
structure QueryPage where
  entries : List LogEntry
  total : Nat
  page : Nat
  size : Nat
  total_pages : Nat

deriving instance DecidableEq for QueryPage

/-- The query error taxonomy needed here (section 7). -/
inductive QueryError where
  | InvalidArgument

deriving instance DecidableEq for QueryError

deriving instance DecidableEq for Except

/-- Insertion of one entry into an already ordered result list. -/
def insertOrdered (e : LogEntry) : List LogEntry → List LogEntry
  | [] => [e]
  | x :: xs => if entryBefore e x then e :: x :: xs else x :: insertOrdered e xs

/-- Sorting of the result list by the spec ordering (insertion sort). -/
def sortEntries : List LogEntry → List LogEntry
  | [] => []
  | x :: xs => insertOrdered x (sortEntries xs)

/-- Modelled from the spec: the matching entries of the authenticated
project in result order (descending timestamp, ties by identifier). -/
def queryResults (store : List LogEntry) (pid : String) (f : QueryFilter) :
    List LogEntry :=
  sortEntries (queryMatches store pid f)

/-- Modelled from the spec: the Query Service of section 4.6 - rejects a
non-positive size as InvalidArgument, otherwise filters the store down to
the authenticated project, orders it, slices the requested page and
normalizes the response with totalPages the ceiling of total over size. -/
def queryService (store : List LogEntry) (pid : String) (f : QueryFilter) :
    Except QueryError QueryPage :=
  if f.size ≤ 0 then Except.error QueryError.InvalidArgument
  else
    Except.ok
      { entries := ((queryResults store pid f).drop ((f.page - 1) * f.size.toNat)).take
          f.size.toNat
        total := (queryResults store pid f).length
        page := f.page
        size := f.size.toNat
        total_pages := ceilDiv (queryResults store pid f).length f.size.toNat }

/-- Modelled from the spec: a raw submitted entry before validation
(section 4.2); absent fields are none. -/
structure RawEntry where
  message : Option String
  level : Option String
  service : Option String
  timestamp : Option Nat
  metadata : List (String × String)

deriving instance DecidableEq for RawEntry

/-- The enumerated level set as parsed from the submitted string. -/
def levelOfString : String → Option Level
  | "INFO" => some Level.INFO
  | "WARNING" => some Level.WARNING
  | "ERROR" => some Level.ERROR
  | "CRITICAL" => some Level.CRITICAL
  | "DEBUG" => some Level.DEBUG
  | _ => none

/-- Modelled from the spec: per-entry validation of section 4.2 - message
and service non-empty, level in the enumerated set with INFO as the explicit
default when omitted, timestamp defaulted to the server clock when absent;
the project identifier comes from the authenticating credential and the
identifier is assigned at ingestion. -/
def validateEntry (now : Nat) (pid : String) (eid : Nat) (r : RawEntry) :
    Option LogEntry :=
  match r.message, r.service with
  | some m, some sv =>
    if m == "" || sv == "" then none
    else
      match r.level with
      | none =>
        some { id := eid, timestamp := r.timestamp.getD now, level := Level.INFO
               service := sv, message := m, metadata := r.metadata, project_id := pid }
      | some ls =>
        match levelOfString ls with
        | none => none
        | some lv =>
          some { id := eid, timestamp := r.timestamp.getD now, level := lv
                 service := sv, message := m, metadata := r.metadata, project_id := pid }
  | _, _ => none

/-- Modelled from the spec: batch ingestion of section 4.2 - validation is
per-entry and independent, accepted entries are enqueued in order, each
invalid entry is counted as failed, and the call always produces a
partial-success response rather than a wholesale error. -/
def ingestBatchModel (now : Nat) (pid : String) (batch : List RawEntry) :
    BatchOkResponse × List LogEntry :=
  let accepted := batch.enum.filterMap (fun ir => validateEntry now pid ir.1 ir.2)
  ({ status := "accepted"
     message := "batch processed"
     queued := accepted.length
     failed := batch.length - accepted.length }, accepted)

/-- Modelled from the spec: a stand-in one-way verification digest for API
keys - the registry must store a digest rather than the reversible key
(section 3 data model, section 4.1). -/
def hashKey (s : String) : Nat :=
  s.data.foldl (fun a c => (a + c.toNat) % 256) 0

/-- Modelled from the spec: the project record kept by the registry after
creation carries the key digest and never the raw key (section 3). -/
structure ProjectRecord where
  id : String
  name : String
  apiKeyDigest : Nat

deriving instance DecidableEq for ProjectRecord

/-- Modelled from the spec: registration stores only the digest of the
generated key. -/
def mkProjectRecord (pid pname rawKey : String) : ProjectRecord :=
  { id := pid, name := pname, apiKeyDigest := hashKey rawKey }

/-- Modelled from the spec: key verification compares the digest of the
presented key against the stored digest (section 4.1). -/
def verifyApiKey (r : ProjectRecord) (presented : String) : Bool :=
  hashKey presented == r.apiKeyDigest

/-- Modelled from the spec: the response of the GET project api-key path is
computed from the stored record alone, which holds only the digest. -/
def apiKeyEndpoint (r : ProjectRecord) : String :=
  toString r.apiKeyDigest

/-- Proof normal form of one optional query parameter after the request
filter: the key paired with the raw string when present and guarded. -/
def strQP (k : String) (g : String → Bool) : Option String → List (String × String)
  | some s => if g s then [(k, s)] else []
  | none => []

/-- A concrete log entry of project A used as a test vector. -/
def logA : LogEntry :=
  { id := 1, timestamp := 100, level := Level.INFO, service := "auth"
    message := "boot ok", metadata := [], project_id := "A" }

/-- A concrete query filter with no restrictions, page one, size ten. -/
def filterEx : QueryFilter :=
  { search := none, level := none, service := none, from_ts := none
    to_ts := none, page := 1, size := 10 }

/-- The page returned for project B over a store holding only the project A
entry. -/
def pageB : QueryPage :=
  { entries := [], total := 0, page := 1, size := 10, total_pages := 0 }

/-- A concrete query filter asking for page five of ten-entry pages. -/
def filterPageFive : QueryFilter :=
  { search := none, level := none, service := none, from_ts := none
    to_ts := none, page := 5, size := 10 }

/-- A concrete query filter with a non-positive size. -/
def filterSizeZero : QueryFilter :=
  { search := none, level := none, service := none, from_ts := none
    to_ts := none, page := 1, size := 0 }

/-- The page returned for project A, page five, over a store holding the one
project A entry. -/
def pageBeyond : QueryPage :=
  { entries := [], total := 1, page := 5, size := 10, total_pages := 1 }

/-- A concrete ingestion payload. -/
def payloadEx : IngestPayload :=
  { message := "boot ok", level := "INFO", service := "auth"
    timestamp := none, metadata := [] }

/-- A concrete success body for POST /ingest. -/
def okBody : IngestOkResponse :=
  { status := "queued", message := "accepted", timestamp := "2024-01-01T00:00:00Z" }

/-- Concrete stored credentials. -/
def credsEx : StoredCredentials :=
  { user := { id := "u1", username := "swift-falcon", api_key := "tok-1" }
    oauth_token := "tok-1", projects := [] }

/-- A concrete fetchLogs parameter record exercising the renamings, the ALL
sentinels and an empty endDate. -/
def paramsEx : FetchLogsParams :=
  { page := 1, size := 50, search := some "err", level := some "ALL"
    service := some "ALL", startDate := some "2024-01-01", endDate := some ""
    backend := some "elasticsearch", project_id := some "proj-1" }

/-- A concrete fetchLogs parameter record whose string filters are all
empty. -/
def paramsEmpty : FetchLogsParams :=
  { page := 1, size := 50, search := some "", level := some ""
    service := some "", startDate := some "", endDate := some ""
    backend := none, project_id := none }

/-- A concrete pagination state: page three of one hundred twenty results in
pages of fifty. -/
def pstate : PaginationState :=
  { page := 3, size := 50, total := 120 }

/-- The URL parameter filter distributes over concatenation. -/
theorem appendParams_append (a b : List (String × JsValue)) :
    appendParams (a ++ b) = appendParams a ++ appendParams b := by
  simp [appendParams, List.filter_append]

/-- Filtering one optional fetchLogs parameter keeps exactly the guarded
value, in raw form, because every guard implies non-emptiness. -/
theorem appendParams_optStrParam (k : String) (g : String → Bool) (o : Option String)
    (hg : ∀ s, g s = true → s ≠ "") :
    appendParams (optStrParam k g o) = strQP k g o := by
  cases o with
  | none => rfl
  | some s =>
    by_cases h : g s = true
    · have hs : (s != "") = true := by simpa using hg s h
      simp [optStrParam, strQP, h, appendParams, shouldAppend, hs, JsValue.toJsString]
    · have h2 : g s = false := by revert h; cases g s <;> simp
      simp [optStrParam, strQP, h2, appendParams]

/-- Membership in one optional parameter block determines the key, the
stored value and the guard. -/
theorem mem_strQP {k : String} {g : String → Bool} {o : Option String}
    {kv : String × String} (h : kv ∈ strQP k g o) :
    ∃ s, o = some s ∧ g s = true ∧ kv = (k, s) := by
  cases o with
  | none => simp [strQP] at h
  | some s =>
    by_cases hg : g s = true
    · simp [strQP, hg] at h
      exact ⟨s, rfl, hg, by simp [h]⟩
    · have h2 : g s = false := by revert hg; cases g s <;> simp
      simp [strQP, h2] at h

/-- A key occurring in one optional parameter block is that block's key and
comes with a guarded value. -/
theorem key_strQP {k q : String} {g : String → Bool} {o : Option String}
    (h : q ∈ (strQP k g o).map Prod.fst) :
    q = k ∧ ∃ s, o = some s ∧ g s = true := by
  rcases List.mem_map.mp h with ⟨kv, hkv, hq⟩
  rcases mem_strQP hkv with ⟨s, ho, hg, he⟩
  subst he
  exact ⟨hq.symm, s, ho, hg⟩

/-- The GET /logs query string in block normal form. -/
theorem fetchLogsQuery_eq (p : FetchLogsParams) :
    fetchLogsQuery p =
      [("page", toString p.page), ("size", toString p.size)]
        ++ strQP "search" (fun s => s != "") p.search
        ++ strQP "level" (fun s => s != "" && s != "ALL") p.level
        ++ strQP "service" (fun s => s != "" && s != "ALL") p.service
        ++ strQP "from_ts" (fun s => s != "") p.startDate
        ++ strQP "to_ts" (fun s => s != "") p.endDate
        ++ strQP "backend" (fun s => s != "") p.backend
        ++ strQP "project_id" (fun s => s != "") p.project_id := by
  have hg1 : ∀ s : String, (s != "") = true → s ≠ "" := by
    intro s hs; simpa using hs
  have hg2 : ∀ s : String, (s != "" && s != "ALL") = true → s ≠ "" := by
    intro s hs
    simp only [Bool.and_eq_true, bne_iff_ne, ne_eq] at hs
    exact hs.1
  unfold fetchLogsQuery buildApiParams
  rw [appendParams_append, appendParams_append, appendParams_append,
    appendParams_append, appendParams_append, appendParams_append,
    appendParams_append]
  rw [appendParams_optStrParam _ _ _ hg1, appendParams_optStrParam _ _ _ hg2,
    appendParams_optStrParam _ _ _ hg2, appendParams_optStrParam _ _ _ hg1,
    appendParams_optStrParam _ _ _ hg1, appendParams_optStrParam _ _ _ hg1,
    appendParams_optStrParam _ _ _ hg1]
  rfl

/-- Every key of the GET /logs query string is one of the nine fixed names,
each coming from its own guarded source field. -/
theorem fetchLogsQuery_key_cases (p : FetchLogsParams) (q : String)
    (h : q ∈ (fetchLogsQuery p).map Prod.fst) :
    q = "page" ∨ q = "size" ∨
    (q = "search" ∧ ∃ s, p.search = some s ∧ (s != "") = true) ∨
    (q = "level" ∧ ∃ s, p.level = some s ∧ (s != "" && s != "ALL") = true) ∨
    (q = "service" ∧ ∃ s, p.service = some s ∧ (s != "" && s != "ALL") = true) ∨
    (q = "from_ts" ∧ ∃ s, p.startDate = some s ∧ (s != "") = true) ∨
    (q = "to_ts" ∧ ∃ s, p.endDate = some s ∧ (s != "") = true) ∨
    (q = "backend" ∧ ∃ s, p.backend = some s ∧ (s != "") = true) ∨
    (q = "project_id" ∧ ∃ s, p.project_id = some s ∧ (s != "") = true) := by
  rw [fetchLogsQuery_eq] at h
  simp only [List.map_append, List.mem_append, List.map_cons, List.map_nil,
    List.mem_cons, List.not_mem_nil, or_false, or_assoc] at h
  rcases h with h | h | h | h | h | h | h | h | h
  · exact Or.inl h
  · exact Or.inr (Or.inl h)
  · exact Or.inr (Or.inr (Or.inl (key_strQP h)))
  · exact Or.inr (Or.inr (Or.inr (Or.inl (key_strQP h))))
  · exact Or.inr (Or.inr (Or.inr (Or.inr (Or.inl (key_strQP h)))))
  · exact Or.inr (Or.inr (Or.inr (Or.inr (Or.inr (Or.inl (key_strQP h))))))
  · exact Or.inr (Or.inr (Or.inr (Or.inr (Or.inr (Or.inr (Or.inl (key_strQP h)))))))
  · exact Or.inr (Or.inr (Or.inr (Or.inr (Or.inr (Or.inr (Or.inr (Or.inl
      (key_strQP h))))))))
  · exact Or.inr (Or.inr (Or.inr (Or.inr (Or.inr (Or.inr (Or.inr (Or.inr
      (key_strQP h))))))))

/-- The ceiling quotient times the divisor dominates the dividend. -/
theorem le_ceilDiv_mul (t s : Nat) (hs : 0 < s) : t ≤ ceilDiv t s * s := by
  unfold ceilDiv
  rw [Nat.mul_comm]
  have h1 := Nat.div_add_mod (t + s - 1) s
  have h2 := Nat.mod_lt (t + s - 1) hs
  generalize hx : s * ((t + s - 1) / s) = x at h1 ⊢
  generalize hy : (t + s - 1) % s = y at h1 h2
  omega

/-- Splitting a list by success of a partial function preserves length. -/
theorem length_filterMap_isNone {α β : Type} (f : α → Option β) (l : List α) :
    (l.filterMap f).length + (l.filter (fun a => (f a).isNone)).length = l.length := by
  induction l with
  | nil => rfl
  | cons a t ih =>
    cases h : f a with
    | none =>
      simp [List.filterMap_cons, List.filter_cons, h]
      omega
    | some b =>
      simp [List.filterMap_cons, List.filter_cons, h]
      omega

/-- Membership is preserved by ordered insertion. -/
theorem mem_insertOrdered {a e : LogEntry} {l : List LogEntry} :
    a ∈ insertOrdered e l ↔ a = e ∨ a ∈ l := by
  induction l with
  | nil => simp [insertOrdered]
  | cons x xs ih =>
    by_cases h : entryBefore e x = true
    · simp [insertOrdered, h]
    · simp only [insertOrdered, h, if_false, Bool.not_eq_true] at *
      simp [insertOrdered, h, List.mem_cons, ih]
      tauto

/-- Membership is preserved by the result ordering. -/
theorem mem_sortEntries {a : LogEntry} {l : List LogEntry} :
    a ∈ sortEntries l ↔ a ∈ l := by
  induction l with
  | nil => exact Iff.rfl
  | cons x xs ih => simp [sortEntries, mem_insertOrdered, ih]

/-- C1: a log entry belonging to one project is never contained in the
result page of a query authenticated for a different ProjectID, for every
store and every combination of filter values (search, level, service, time
range, page, size) - query results are always scoped to the authenticated
ProjectID. -/
theorem query_scoped_to_project (store : List LogEntry) (e : LogEntry)
    (pidB : String) (f : QueryFilter) (pg : QueryPage)
    (hne : e.project_id ≠ pidB)
    (hq : queryService store pidB f = Except.ok pg) :
    e ∉ pg.entries := by
  intro hmem
  unfold queryService at hq
  by_cases hs : f.size ≤ 0
  · rw [if_pos hs] at hq
    exact absurd hq (by simp)
  · rw [if_neg hs] at hq
    injection hq with hq
    subst hq
    have h1 : e ∈ queryResults store pidB f :=
      List.mem_of_mem_drop (List.mem_of_mem_take hmem)
    have h2 : e ∈ queryMatches store pidB f := mem_sortEntries.mp h1
    have h3 := (List.mem_filter.mp h2).2
    simp only [Bool.and_eq_true, beq_iff_eq] at h3
    exact hne h3.1

/-- C1 witness: a store holding one project A entry, queried for project B,
yields a page that does not contain the entry. -/
theorem query_scoped_to_project_witness : logA ∉ pageB.entries :=
  query_scoped_to_project [logA] logA "B" filterEx pageB (by decide) (by decide)

/-- C4: a non-positive page size is rejected as InvalidArgument; on success
the reported total counts the matching entries, totalPages is the ceiling
of total over size, and a page number beyond totalPages yields an empty
entry list while the total stays correct; the logs page computes totalPages
by the same ceiling. -/
theorem pagination_contract :
    (∀ store pid f, f.size ≤ 0 →
      queryService store pid f = Except.error QueryError.InvalidArgument) ∧
    (∀ store pid f pg, queryService store pid f = Except.ok pg →
      pg.total = (queryResults store pid f).length ∧
      pg.size = f.size.toNat ∧
      pg.total_pages = ceilDiv pg.total pg.size ∧
      (pg.total_pages < pg.page → pg.entries = [])) ∧
    (∀ p : PaginationState, totalPages p = ceilDiv p.total p.size) := by
  refine ⟨?_, ?_, fun p => rfl⟩
  · intro store pid f hle
    unfold queryService
    rw [if_pos hle]
  · intro store pid f pg hq
    unfold queryService at hq
    by_cases hs : f.size ≤ 0
    · rw [if_pos hs] at hq
      exact absurd hq (by simp)
    · rw [if_neg hs] at hq
      injection hq with hq
      subst hq
      refine ⟨rfl, rfl, rfl, ?_⟩
      intro hgt
      have hgt2 : ceilDiv (queryResults store pid f).length f.size.toNat < f.page := hgt
      have hpos : 0 < f.size.toNat := by omega
      have hL : (queryResults store pid f).length ≤ (f.page - 1) * f.size.toNat := by
        have h1 := le_ceilDiv_mul (queryResults store pid f).length f.size.toNat hpos
        have h2 : ceilDiv (queryResults store pid f).length f.size.toNat ≤ f.page - 1 := by
          omega
        calc (queryResults store pid f).length
            ≤ ceilDiv (queryResults store pid f).length f.size.toNat * f.size.toNat := h1
          _ ≤ (f.page - 1) * f.size.toNat := Nat.mul_le_mul_right _ h2
      show ((queryResults store pid f).drop ((f.page - 1) * f.size.toNat)).take
          f.size.toNat = []
      rw [List.drop_eq_nil_of_le hL]
      simp

/-- C4 witness: size zero is rejected, and page five of a one-entry store is
empty with total one. -/
theorem pagination_contract_witness :
    queryService [] "" filterSizeZero = Except.error QueryError.InvalidArgument ∧
    pageBeyond.entries = [] ∧ pageBeyond.total = 1 :=
  ⟨pagination_contract.1 [] "" filterSizeZero (by decide),
   (pagination_contract.2.1 [logA] "A" filterPageFive pageBeyond (by decide)).2.2.2
     (by decide),
   (pagination_contract.2.1 [logA] "A" filterPageFive pageBeyond (by decide)).1.trans
     (by decide)⟩

/-- C3: for every batch, queued plus failed equals the batch length, queued
counts exactly the accepted entries (which are all enqueued), failed counts
exactly the entries rejected by per-entry validation, the response always
has the status, message, queued, failed shape rather than a wholesale
failure, and the frontend batch call posts to /ingest/batch and surfaces an
ok body verbatim. -/
theorem batch_partial_success (now : Nat) (pid : String) (batch : List RawEntry) :
    (ingestBatchModel now pid batch).1.queued + (ingestBatchModel now pid batch).1.failed
        = batch.length ∧
    (ingestBatchModel now pid batch).1.queued
        = (ingestBatchModel now pid batch).2.length ∧
    (ingestBatchModel now pid batch).1.failed
        = (batch.enum.filter (fun ir => (validateEntry now pid ir.1 ir.2).isNone)).length ∧
    (∀ body : BatchOkResponse, ingestBatchOutcome 200 "OK" none body = Except.ok body) ∧
    (∀ base ds, (ingestLogsBatchRequest base ds).url = base ++ "/ingest/batch") := by
  have hkey := length_filterMap_isNone (fun ir => validateEntry now pid ir.1 ir.2)
    batch.enum
  have hlen : batch.enum.length = batch.length := List.enum_length
  refine ⟨?_, rfl, ?_, fun body => rfl, fun base ds => rfl⟩
  · show (batch.enum.filterMap (fun ir => validateEntry now pid ir.1 ir.2)).length
        + (batch.length
            - (batch.enum.filterMap (fun ir => validateEntry now pid ir.1 ir.2)).length)
        = batch.length
    omega
  · show batch.length
        - (batch.enum.filterMap (fun ir => validateEntry now pid ir.1 ir.2)).length
        = (batch.enum.filter (fun ir => (validateEntry now pid ir.1 ir.2).isNone)).length
    omega

/-- C7: getServices with the s3 backend yields the explicit empty services
result locally, without issuing a request, while every other backend value
issues a GET /logs/services request carrying the backend parameter exactly
when it is present and non-empty. -/
theorem services_s3_empty :
    getServices (some "s3") = ServicesCall.localEmpty ∧
    getServices none = ServicesCall.httpGet "/logs/services" [] ∧
    (∀ b, b ≠ "s3" → b ≠ "" →
      getServices (some b) = ServicesCall.httpGet "/logs/services" [("backend", b)]) ∧
    getServices (some "") = ServicesCall.httpGet "/logs/services" [] := by
  refine ⟨by decide, by decide, ?_, by decide⟩
  intro b hb1 hb2
  have h1 : (b != "") = true := by simpa using hb2
  have h2 : (some b == some "s3") = false := by
    simp only [beq_eq_false_iff_ne, ne_eq, Option.some.injEq]
    exact hb1
  have h3 : (some b != some "s3") = true := by
    simp [bne, h2]
  simp [getServices, strTruthy, h1, h2, h3, appendParams, shouldAppend,
    JsValue.toJsString]

/-- C7 witness: the sqlite backend issues the network request with its
backend parameter. -/
theorem services_s3_empty_witness :
    getServices (some "sqlite")
      = ServicesCall.httpGet "/logs/services" [("backend", "sqlite")] :=
  services_s3_empty.2.2.1 "sqlite" (by decide) (by decide)

/-- C8: after registerUser the persisted credentials satisfy oauth_token =
user.api_key - the user management credential and the api_key returned at
registration are the same string, with an empty initial project list. -/
theorem register_conflates_credentials (u : User) :
    (registerStore u).oauth_token = (registerStore u).user.api_key ∧
    (registerStore u).projects = [] :=
  ⟨rfl, rfl⟩

/-- C9: filter and query changes reset the page to one; Previous is
disabled exactly on page one and otherwise decrements while staying at
least one; Next is disabled from totalPages on and otherwise clamps the
incremented page to totalPages; so the handlers never move the page below
one or above the ceiling of total over size. -/
theorem pagination_in_range (p : PaginationState) (hp : 1 ≤ p.page) :
    (resetPage p).page = 1 ∧
    (prevDisabled p = true ↔ p.page = 1) ∧
    (nextDisabled p = true ↔ totalPages p ≤ p.page) ∧
    (prevDisabled p = false →
      1 ≤ (prevClick p).page ∧ (prevClick p).page < p.page) ∧
    (1 ≤ (prevClick p).page) ∧
    (nextDisabled p = false →
      1 ≤ (nextClick p).page ∧ (nextClick p).page ≤ totalPages p) := by
  refine ⟨rfl, by simp [prevDisabled], by simp [nextDisabled], ?_, ?_, ?_⟩
  · intro h
    have h1 : p.page ≠ 1 := by simpa [prevDisabled] using h
    simp only [prevClick]
    omega
  · simp only [prevClick]
    omega
  · intro h
    have h1 : ¬ totalPages p ≤ p.page := by simpa [nextDisabled] using h
    simp only [nextClick]
    omega

/-- C9 witness: on page three of three pages, Previous moves to page two and
stays in range. -/
theorem pagination_in_range_witness :
    (resetPage pstate).page = 1 ∧
    1 ≤ (prevClick pstate).page ∧ (prevClick pstate).page < pstate.page :=
  ⟨(pagination_in_range pstate (by decide)).1,
   (pagination_in_range pstate (by decide)).2.2.2.1 (by decide)⟩

/-- C2: under the modelled registry, verification of the created key
succeeds against the stored digest, two distinct raw keys produce the same
stored record, no function of the stored record can recover the raw key (in
particular the GET api-key endpoint cannot return it), and the frontend
path merely forwards the api_key field of the server response. -/
theorem api_key_digest_only :
    (∀ i n k, verifyApiKey (mkProjectRecord i n k) k = true) ∧
    (mkProjectRecord "p" "n" "ab" = mkProjectRecord "p" "n" "ba" ∧
      ("ab" : String) ≠ "ba") ∧
    (¬ ∃ recover : ProjectRecord → String,
        ∀ k, recover (mkProjectRecord "p" "n" k) = k) ∧
    (¬ ∀ k, apiKeyEndpoint (mkProjectRecord "p" "n" k) = k) ∧
    (∀ c status stx d key, c.oauth_token ≠ "" → respOk status = true →
      getProjectApiKey (some c) status stx d key = Except.ok key) := by
  refine ⟨?_, by decide, ?_, ?_, ?_⟩
  · intro i n k
    simp [verifyApiKey, mkProjectRecord]
  · rintro ⟨recover, hrec⟩
    have h1 := hrec "ab"
    have h2 := hrec "ba"
    have hcol : mkProjectRecord "p" "n" "ab" = mkProjectRecord "p" "n" "ba" := by
      decide
    rw [hcol] at h1
    have hab : ("ab" : String) = "ba" := h1.symm.trans h2
    exact absurd hab (by decide)
  · intro h
    have h1 := h "ab"
    have h2 := h "ba"
    have hcol : mkProjectRecord "p" "n" "ab" = mkProjectRecord "p" "n" "ba" := by
      decide
    rw [hcol] at h1
    have hab : ("ab" : String) = "ba" := h1.symm.trans h2
    exact absurd hab (by decide)
  · intro c status stx d key hc hok
    simp [getProjectApiKey, hok, hc]

/-- C2 witness: with stored credentials present and an ok response, the
frontend returns the api_key field of the response. -/
theorem api_key_digest_only_witness :
    getProjectApiKey (some credsEx) 200 "OK" none "42" = Except.ok "42" :=
  api_key_digest_only.2.2.2.2 credsEx 200 "OK" none "42" (by decide) (by decide)

/-- C5 counterexample: the POST /ingest request built by ApiService.ingestLog
for a concrete payload has Content-Type as its only header, so the
submission does not carry the credential in an X-API-Key header. -/
theorem ingest_missing_api_key_header :
    (ingestLogRequest "http://localhost:8000" payloadEx).headers
        = [("Content-Type", "application/json")] ∧
    "X-API-Key" ∉ ((ingestLogRequest "http://localhost:8000" payloadEx).headers.map
        Prod.fst) := by
  refine ⟨rfl, ?_⟩
  decide

/-- C5 amended: the submission is a POST on baseUrl/ingest whose only
header is Content-Type (no X-API-Key header is set); on success the
response has the status, message, timestamp shape; failures are surfaced
synchronously as thrown errors preserving the server detail, 401 and 422
being told apart by the status-line fallback when no detail is provided. -/
theorem ingest_single_contract :
    (∀ base d, (ingestLogRequest base d).headers
        = [("Content-Type", "application/json")] ∧
      (ingestLogRequest base d).url = base ++ "/ingest" ∧
      (ingestLogRequest base d).body = d) ∧
    (∀ st d body, respOk st = true → ingestLogOutcome st "OK" d body = Except.ok body) ∧
    (∀ st stx detail body, respOk st = false → detail ≠ "" →
      ingestLogOutcome st stx (some detail) body = Except.error detail) ∧
    (∀ stx stx2 body,
      ingestLogOutcome 401 stx none body = Except.error ("HTTP 401: " ++ stx) ∧
      ingestLogOutcome 422 stx2 none body = Except.error ("HTTP 422: " ++ stx2) ∧
      ("HTTP 401: " ++ stx) ≠ ("HTTP 422: " ++ stx2)) := by
  refine ⟨fun base d => ⟨rfl, rfl, rfl⟩, ?_, ?_, ?_⟩
  · intro st d body h
    simp [ingestLogOutcome, h]
  · intro st stx detail body h hd
    simp [ingestLogOutcome, h, throwMessage, hd]
  · intro stx stx2 body
    refine ⟨rfl, rfl, ?_⟩
    intro hEq
    have h2 := congrArg String.data hEq
    simp at h2

/-- C5 amended witness: a 200 response yields the body, a 401 with detail
throws the server detail. -/
theorem ingest_single_contract_witness :
    ingestLogOutcome 200 "OK" none okBody = Except.ok okBody ∧
    ingestLogOutcome 401 "Unauthorized" (some "Invalid API key") okBody
        = Except.error "Invalid API key" :=
  ⟨ingest_single_contract.2.1 200 none okBody (by decide),
   ingest_single_contract.2.2.1 401 "Unauthorized" "Invalid API key" okBody
     (by decide) (by decide)⟩

/-- C6: the GET /logs request uses exactly the parameter names page, size,
search, level, service, from_ts, to_ts, backend, project_id; page and size
are always present; startDate maps to from_ts and endDate to to_ts; level
and service are omitted on the ALL sentinel; and the response shape is the
LogsResponse record that logService maps to data and total. -/
theorem fetch_logs_params (p : FetchLogsParams) :
    (∀ kv, kv ∈ fetchLogsQuery p → kv.1 ∈
      ["page", "size", "search", "level", "service", "from_ts", "to_ts",
       "backend", "project_id"]) ∧
    ("page", toString p.page) ∈ fetchLogsQuery p ∧
    ("size", toString p.size) ∈ fetchLogsQuery p ∧
    (∀ s, p.startDate = some s → s ≠ "" → ("from_ts", s) ∈ fetchLogsQuery p) ∧
    (∀ s, p.endDate = some s → s ≠ "" → ("to_ts", s) ∈ fetchLogsQuery p) ∧
    (p.level = some "ALL" → "level" ∉ (fetchLogsQuery p).map Prod.fst) ∧
    (p.service = some "ALL" → "service" ∉ (fetchLogsQuery p).map Prod.fst) ∧
    (∀ r : LogsResponse, logServiceNormalize r = { data := r.logs, total := r.total }) := by
  refine ⟨?_, ?_, ?_, ?_, ?_, ?_, ?_, fun r => rfl⟩
  · intro kv hkv
    have h := fetchLogsQuery_key_cases p kv.1 (List.mem_map.mpr ⟨kv, hkv, rfl⟩)
    rcases h with h | h | h | h | h | h | h | h | h
    · rw [h]; decide
    · rw [h]; decide
    · rw [h.1]; decide
    · rw [h.1]; decide
    · rw [h.1]; decide
    · rw [h.1]; decide
    · rw [h.1]; decide
    · rw [h.1]; decide
    · rw [h.1]; decide
  · rw [fetchLogsQuery_eq]
    simp
  · rw [fetchLogsQuery_eq]
    simp
  · intro s hsd hne
    rw [fetchLogsQuery_eq, hsd]
    have hs : (s != "") = true := by simpa using hne
    simp [strQP, hs]
  · intro s hsd hne
    rw [fetchLogsQuery_eq, hsd]
    have hs : (s != "") = true := by simpa using hne
    simp [strQP, hs]
  · intro hl hmem
    rcases fetchLogsQuery_key_cases p "level" hmem with h | h | h | h | h | h | h | h | h
    · exact absurd h (by decide)
    · exact absurd h (by decide)
    · exact absurd h.1 (by decide)
    · rcases h.2 with ⟨s, hs, hg⟩
      rw [hl] at hs
      injection hs with hs
      subst hs
      exact absurd hg (by decide)
    · exact absurd h.1 (by decide)
    · exact absurd h.1 (by decide)
    · exact absurd h.1 (by decide)
    · exact absurd h.1 (by decide)
    · exact absurd h.1 (by decide)
  · intro hl hmem
    rcases fetchLogsQuery_key_cases p "service" hmem with h | h | h | h | h | h | h | h | h
    · exact absurd h (by decide)
    · exact absurd h (by decide)
    · exact absurd h.1 (by decide)
    · exact absurd h.1 (by decide)
    · rcases h.2 with ⟨s, hs, hg⟩
      rw [hl] at hs
      injection hs with hs
      subst hs
      exact absurd hg (by decide)
    · exact absurd h.1 (by decide)
    · exact absurd h.1 (by decide)
    · exact absurd h.1 (by decide)
    · exact absurd h.1 (by decide)

/-- C6 witness: with concrete parameters, from_ts carries the startDate and
the ALL level is omitted. -/
theorem fetch_logs_params_witness :
    ("from_ts", "2024-01-01") ∈ fetchLogsQuery paramsEx ∧
    "level" ∉ (fetchLogsQuery paramsEx).map Prod.fst :=
  ⟨(fetch_logs_params paramsEx).2.2.2.1 "2024-01-01" rfl (by decide),
   (fetch_logs_params paramsEx).2.2.2.2.2.1 rfl⟩

/-- C10: a parameter is appended to the request URL iff its value is
neither undefined nor null nor the empty string, and then with its
stringified value; hence an empty search string or empty start and end
date filters are never transmitted. -/
theorem request_param_filtering :
    (∀ v, shouldAppend v = true ↔
      (v ≠ JsValue.undef ∧ v ≠ JsValue.null ∧ v ≠ JsValue.str "")) ∧
    (∀ (ps : List (String × JsValue)) (kv : String × String),
      kv ∈ appendParams ps ↔
      ∃ v, (kv.1, v) ∈ ps ∧ shouldAppend v = true ∧ kv.2 = v.toJsString) ∧
    (∀ p : FetchLogsParams, p.search = some "" →
      "search" ∉ (fetchLogsQuery p).map Prod.fst) ∧
    (∀ p : FetchLogsParams, p.startDate = some "" →
      "from_ts" ∉ (fetchLogsQuery p).map Prod.fst) ∧
    (∀ p : FetchLogsParams, p.endDate = some "" →
      "to_ts" ∉ (fetchLogsQuery p).map Prod.fst) := by
  refine ⟨?_, ?_, ?_, ?_, ?_⟩
  · intro v
    cases v <;> simp [shouldAppend]
  · intro ps kv
    obtain ⟨k1, k2⟩ := kv
    constructor
    · intro h
      simp only [appendParams, List.mem_map, List.mem_filter] at h
      rcases h with ⟨a, ⟨ha, hs⟩, he⟩
      obtain ⟨a1, a2⟩ := a
      obtain ⟨he1, he2⟩ := Prod.ext_iff.mp he
      subst he1
      subst he2
      exact ⟨a2, ha, hs, rfl⟩
    · rintro ⟨v, hv, happ, he⟩
      simp only [appendParams, List.mem_map, List.mem_filter]
      exact ⟨(k1, v), ⟨hv, happ⟩, Prod.ext_iff.mpr ⟨rfl, he.symm⟩⟩
  · intro p hp hmem
    rcases fetchLogsQuery_key_cases p "search" hmem with h | h | h | h | h | h | h | h | h
    · exact absurd h (by decide)
    · exact absurd h (by decide)
    · rcases h.2 with ⟨s, hs, hg⟩
      rw [hp] at hs
      injection hs with hs
      subst hs
      exact absurd hg (by decide)
    · exact absurd h.1 (by decide)
    · exact absurd h.1 (by decide)
    · exact absurd h.1 (by decide)
    · exact absurd h.1 (by decide)
    · exact absurd h.1 (by decide)
    · exact absurd h.1 (by decide)
  · intro p hp hmem
    rcases fetchLogsQuery_key_cases p "from_ts" hmem with h | h | h | h | h | h | h | h | h
    · exact absurd h (by decide)
    · exact absurd h (by decide)
    · exact absurd h.1 (by decide)
    · exact absurd h.1 (by decide)
    · exact absurd h.1 (by decide)
    · rcases h.2 with ⟨s, hs, hg⟩
      rw [hp] at hs
      injection hs with hs
      subst hs
      exact absurd hg (by decide)
    · exact absurd h.1 (by decide)
    · exact absurd h.1 (by decide)
    · exact absurd h.1 (by decide)
  · intro p hp hmem
    rcases fetchLogsQuery_key_cases p "to_ts" hmem with h | h | h | h | h | h | h | h | h
    · exact absurd h (by decide)
    · exact absurd h (by decide)
    · exact absurd h.1 (by decide)
    · exact absurd h.1 (by decide)
    · exact absurd h.1 (by decide)
    · exact absurd h.1 (by decide)
    · rcases h.2 with ⟨s, hs, hg⟩
      rw [hp] at hs
      injection hs with hs
      subst hs
      exact absurd hg (by decide)
    · exact absurd h.1 (by decide)
    · exact absurd h.1 (by decide)

/-- C10 witness: with every string filter empty, neither search nor the
date parameters are transmitted. -/
theorem request_param_filtering_witness :
    "search" ∉ (fetchLogsQuery paramsEmpty).map Prod.fst ∧
    "from_ts" ∉ (fetchLogsQuery paramsEmpty).map Prod.fst :=
  ⟨request_param_filtering.2.2.1 paramsEmpty rfl,
   request_param_filtering.2.2.2.1 paramsEmpty rfl⟩

end Emit
